import Mathlib

/-!
Verification of the budget display generator (`generate_display.py`).

The transaction aggregation engine (`calculate_spending`), the amount
formatter (`format_amount`), the font resolution chain, the weather icon
lookup (`get_weather_icon`) and the icon inversion step of `generate_image`
are shallowly embedded below.  Python floats are modelled as rationals,
Python `date` objects as a calendar-date structure compared through their
proleptic Gregorian ordinals (which is how Python compares dates), and
fallible dictionary / parsing accesses as `Except` / `Option` values.
-/

/-- A calendar date, as Python's `datetime.date` triple. -/
structure Date where
  year : Nat
  month : Nat
  day : Nat
deriving DecidableEq, Repr

/-- Gregorian leap year rule. -/
def isLeap (y : Nat) : Bool := y % 4 == 0 && (y % 100 != 0 || y % 400 == 0)

/-- Length of month `m` of year `y` (`0` for out-of-range months). -/
def monthLength (y : Nat) (m : Nat) : Nat :=
  match m with
  | 1 => 31
  | 2 => if isLeap y then 29 else 28
  | 3 => 31
  | 4 => 30
  | 5 => 31
  | 6 => 30
  | 7 => 31
  | 8 => 31
  | 9 => 30
  | 10 => 31
  | 11 => 30
  | 12 => 31
  | _ => 0

/-- Days in year `y` strictly before month `m`. -/
def daysBeforeMonth (y m : Nat) : Nat :=
  ((List.range (m - 1)).map (fun i => monthLength y (i + 1))).sum

/-- Number of leap years in `1 .. y-1`. -/
def leapsBefore (y : Nat) : Nat := (y - 1) / 4 - (y - 1) / 100 + (y - 1) / 400

/-- Proleptic Gregorian ordinal of a date; agrees with Python's
`date.toordinal()` (`0001-01-01` maps to `1`).  Python compares dates
exactly as their ordinals compare. -/
def toOrd (d : Date) : Int :=
  365 * ((d.year : Int) - 1) + (leapsBefore d.year : Int)
    + (daysBeforeMonth d.year d.month : Int) + (d.day : Int)

/-- Python's `date.weekday()`: Monday is `0`, Sunday is `6`. -/
def weekdayMon (d : Date) : Int := (toOrd d + 6) % 7

/-- Value of a decimal digit character. -/
def charDigit? (c : Char) : Option Nat :=
  if c.isDigit then some (c.toNat - 48) else none

/-- Value of a nonempty all-digit character list, else `none`. -/
def digitsVal? (cs : List Char) : Option Nat :=
  match cs with
  | [] => none
  | _ :: _ => cs.foldlM (fun a c => (charDigit? c).map (fun d => a * 10 + d)) 0

/-- Split a character list on a separator (like Python `str.split`). -/
def splitOnChar (sep : Char) : List Char → List (List Char)
  | [] => [[]]
  | c :: rest =>
    let r := splitOnChar sep rest
    if c = sep then [] :: r
    else
      match r with
      | [] => [[c]]
      | g :: gs => (c :: g) :: gs

/-- `datetime.strptime(s, "%Y-%m-%d").date()`: three dash-separated decimal
fields forming a valid calendar date, else a parse failure. -/
def parse_date (s : String) : Option Date :=
  match splitOnChar '-' s.data with
  | [ys, ms, ds] => do
    let y ← digitsVal? ys
    let m ← digitsVal? ms
    let d ← digitsVal? ds
    if 1 ≤ y ∧ y ≤ 9999 ∧ 1 ≤ m ∧ m ≤ 12 ∧ 1 ≤ d ∧ d ≤ monthLength y m then
      some ⟨y, m, d⟩
    else none
  | _ => none

/-- `needle.isPrefixOf hay` over characters, written out. -/
def listStartsWith : List Char → List Char → Bool
  | [], _ => true
  | _ :: _, [] => false
  | a :: xs, b :: ys => a == b && listStartsWith xs ys

/-- Substring containment over character lists. -/
def listContainsSub : List Char → List Char → Bool
  | needle, [] => listStartsWith needle []
  | needle, c :: rest => listStartsWith needle (c :: rest) || listContainsSub needle rest

/-- Python's `needle in hay` on strings (substring containment). -/
def strContainsSub (needle hay : String) : Bool := listContainsSub needle.data hay.data

/-- The excluded category terms (module constant `EXCLUDED_CATEGORIES`). -/
def EXCLUDED_CATEGORIES : List String :=
  ["Transfer", "Deposit", "Payment", "Bank Fees", "Interest", "Tax"]

/-- The excluded transaction types (module constant, empty). -/
def EXCLUDED_TRANSACTION_TYPES : List String := []

/-- The exclusion test of `calculate_spending` (lines 198-205): a category
string containing an excluded term as a substring, an excluded transaction
type, or a non-positive amount. -/
def is_excluded (category : List String) (ttype : Option String) (amount : ℚ)
    (exCats exKinds : List String) : Bool :=
  if category.any (fun cat => exCats.any (fun exc => strContainsSub exc cat)) then true
  else if (match ttype with | some t => exKinds.contains t | none => false) then true
  else if amount ≤ 0 then true
  else false

/-- A transaction's `date` field: either a string (to be parsed) or an
already-constructed date, as in the `isinstance(txn_date, str)` test. -/
inductive DateField where
  | str (s : String)
  | date (d : Date)
deriving DecidableEq, Repr

/-- A raw transaction record.  `amount`, `category` and `transaction_type`
are optional because the Python dictionary may lack them (`txn['amount']`
raises on a missing key, `txn.get(...)` yields `None`). -/
structure RawTxn where
  date : DateField
  amount : Option ℚ
  category : Option (List String)
  transaction_type : Option String
deriving DecidableEq, Repr

/-- Lines 188-190: parse the date field when it is a string. -/
def getTxnDate (t : RawTxn) : Option Date :=
  match t.date with
  | .str s => parse_date s
  | .date d => some d

/-- The three running totals of `calculate_spending`. -/
structure Totals where
  day : ℚ
  week : ℚ
  month : ℚ
deriving DecidableEq, Repr

/-- One iteration of the `calculate_spending` loop (lines 187-213):
parse the date (a failure aborts the whole call), early-skip dates before
`month_start`, read the amount (a missing key aborts the whole call),
filter, then add the amount to each window whose membership rule holds. -/
def applyTxn (today : Date) (wsOrd msOrd : Int) (acc : Totals) (txn : RawTxn) :
    Except String Totals :=
  match getTxnDate txn with
  | none => .error "ValueError: time data does not match format %Y-%m-%d"
  | some dt =>
    if toOrd dt < msOrd then .ok acc
    else
      match txn.amount with
      | none => .error "KeyError: amount"
      | some amount =>
        if is_excluded (txn.category.getD []) txn.transaction_type amount
            EXCLUDED_CATEGORIES EXCLUDED_TRANSACTION_TYPES then .ok acc
        else
          .ok { day := acc.day + (if dt = today then amount else 0),
                week := acc.week + (if wsOrd ≤ toOrd dt then amount else 0),
                month := acc.month + (if msOrd ≤ toOrd dt then amount else 0) }

/-- The `calculate_spending` loop over the transaction list. -/
def calcFold (today : Date) (wsOrd msOrd : Int) (acc : Totals) :
    List RawTxn → Except String Totals
  | [] => .ok acc
  | txn :: rest =>
    match applyTxn today wsOrd msOrd acc txn with
    | .error e => .error e
    | .ok acc2 => calcFold today wsOrd msOrd acc2 rest

/-- `month_start = today.replace(day=1)`. -/
def monthStartOf (today : Date) : Date := { today with day := 1 }

/-- Ordinal of `week_start = today - timedelta(days=today.weekday())`,
the Monday on or before `today`. -/
def weekStartOrd (today : Date) : Int := toOrd today - weekdayMon today

/-- `calculate_spending(transactions)` with `today` made an explicit
parameter: fold the transactions into day/week/month totals. -/
def calculate_spending (transactions : List RawTxn) (today : Date) :
    Except String Totals :=
  calcFold today (weekStartOrd today) (toOrd (monthStartOf today)) ⟨0, 0, 0⟩ transactions

/-- Modelled from the spec (§4.2/§4.3), for comparison with
`calculate_spending`: aggregation **without** the early skip, applying the
three window membership rules (day iff `date == today`, week iff
`date >= week_start`, month iff `date >= month_start`) to every
non-excluded transaction. -/
def applyTxnSpec (today : Date) (wsOrd msOrd : Int) (acc : Totals) (txn : RawTxn) :
    Except String Totals :=
  match getTxnDate txn with
  | none => .error "ValueError: time data does not match format %Y-%m-%d"
  | some dt =>
    match txn.amount with
    | none => .error "KeyError: amount"
    | some amount =>
      if is_excluded (txn.category.getD []) txn.transaction_type amount
          EXCLUDED_CATEGORIES EXCLUDED_TRANSACTION_TYPES then .ok acc
      else
        .ok { day := acc.day + (if dt = today then amount else 0),
              week := acc.week + (if wsOrd ≤ toOrd dt then amount else 0),
              month := acc.month + (if msOrd ≤ toOrd dt then amount else 0) }

/-- Loop of the no-early-skip aggregation. -/
def calcFoldSpec (today : Date) (wsOrd msOrd : Int) (acc : Totals) :
    List RawTxn → Except String Totals
  | [] => .ok acc
  | txn :: rest =>
    match applyTxnSpec today wsOrd msOrd acc txn with
    | .error e => .error e
    | .ok acc2 => calcFoldSpec today wsOrd msOrd acc2 rest

/-- Aggregation without the early skip (spec §4.2's "performance
optimization, not a behavior change" reading). -/
def calculate_spending_noskip (transactions : List RawTxn) (today : Date) :
    Except String Totals :=
  calcFoldSpec today (weekStartOrd today) (toOrd (monthStartOf today)) ⟨0, 0, 0⟩ transactions

/-- A transaction whose date parses and whose amount is present. -/
def wellFormedTxn (t : RawTxn) : Bool := (getTxnDate t).isSome && t.amount.isSome

/-- Round a rational to the nearest integer, ties to even — the rounding
`"%.0f"` formatting performs.  Computed from `num`/`den` directly:
`f = ⌊q⌋` and the doubled remainder `2*(num - f*den)` is compared with
`den` to classify the fractional part against `1/2`. -/
def roundHalfEven (q : ℚ) : ℤ :=
  let n := q.num
  let d : ℤ := (q.den : ℤ)
  let f := n / d
  let r2 := 2 * (n - f * d)
  if r2 < d then f
  else if d < r2 then f + 1
  else if f % 2 = 0 then f else f + 1

/-- The character of a decimal digit `0..9`. -/
def digitChar10 (n : Nat) : Char :=
  if n = 0 then '0' else if n = 1 then '1' else if n = 2 then '2' else if n = 3 then '3'
  else if n = 4 then '4' else if n = 5 then '5' else if n = 6 then '6' else if n = 7 then '7'
  else if n = 8 then '8' else '9'

/-- Little-endian decimal digits of `n` (fuelled structural recursion so
that the kernel can evaluate it). -/
def digitsRevAux : Nat → Nat → List Char
  | 0, _ => []
  | fuel + 1, n =>
    if n < 10 then [digitChar10 n]
    else digitChar10 (n % 10) :: digitsRevAux fuel (n / 10)

/-- Little-endian decimal digits of `n`. -/
def digitsRev (n : Nat) : List Char := digitsRevAux (n + 1) n

/-- Insert a `,` after every three characters of a little-endian digit
list — the thousands grouping of Python's `","` format option. -/
def groupRev : List Char → List Char
  | a :: b :: c :: d :: rest => a :: b :: c :: ',' :: groupRev (d :: rest)
  | l => l

/-- Decimal string of a natural number. -/
def natStrPlain (n : Nat) : String := String.mk (digitsRev n).reverse

/-- Decimal string of a natural number with thousands separators. -/
def natStrGrouped (n : Nat) : String := String.mk (groupRev (digitsRev n)).reverse

/-- Decimal string of an integer. -/
def intStrPlain (i : Int) : String :=
  (if i < 0 then "-" else "") ++ natStrPlain i.natAbs

/-- Decimal string of an integer with thousands separators. -/
def intStrGrouped (i : Int) : String :=
  (if i < 0 then "-" else "") ++ natStrGrouped i.natAbs

/-- `format_amount` (lines 222-226): `f"${amount:,.0f}"` when
`amount >= 1000`, else `f"${amount:.0f}"`. -/
def format_amount (amount : ℚ) : String :=
  if amount ≥ 1000 then "$" ++ intStrGrouped (roundHalfEven amount)
  else "$" ++ intStrPlain (roundHalfEven amount)

/-- A loaded font object: a truetype file at a given size, or the PIL
built-in default font. -/
inductive FontHandle where
  | truetype (path : String) (size : Nat)
  | builtin
deriving DecidableEq, Repr

/-- The five nullable font variables of `generate_image`. -/
structure FontSlots where
  label : Option FontHandle
  small : Option FontHandle
  medium : Option FontHandle
  large : Option FontHandle
  weather : Option FontHandle
deriving DecidableEq, Repr

def LABEL_SIZE : Nat := 36
def SMALL_SIZE : Nat := 80
def MEDIUM_SIZE : Nat := 115
def LARGE_SIZE : Nat := 200
def WEATHER_SIZE : Nat := 42

def fontPathRegular : String := "fonts/CormorantGaramond-Regular.ttf"
def fontPathMedium : String := "fonts/CormorantGaramond-Medium.ttf"
def fontPathSemibold : String := "fonts/CormorantGaramond-SemiBold.ttf"

/-- The ordered system font fallback paths (lines 284-288). -/
def serifPaths : List String :=
  ["/usr/share/fonts/truetype/liberation/LiberationSerif-Regular.ttf",
   "/usr/share/fonts/truetype/liberation2/LiberationSerif-Regular.ttf",
   "/usr/share/fonts/truetype/dejavu/DejaVuSerif.ttf"]

/-- Lines 277-278 of the preferred-family `try` block: the semibold file,
loaded at `LARGE_SIZE` when present; a raised load error leaves the slots
as they are (the enclosing `except` swallows it). -/
def trySemibold (pathExists loadOk : String → Bool) (s : FontSlots) : FontSlots :=
  if pathExists fontPathSemibold then
    if loadOk fontPathSemibold then
      { s with large := some (.truetype fontPathSemibold LARGE_SIZE) }
    else s
  else s

/-- Lines 275-278: the medium file, then the semibold file; a raised load
error aborts the rest of the `try` block. -/
def tryMedium (pathExists loadOk : String → Bool) (s : FontSlots) : FontSlots :=
  if pathExists fontPathMedium then
    if loadOk fontPathMedium then
      trySemibold pathExists loadOk
        { s with medium := some (.truetype fontPathMedium MEDIUM_SIZE) }
    else s
  else trySemibold pathExists loadOk s

/-- Lines 270-280: the preferred-family `try` block.  `pathExists` is
`Path.exists`; `loadOk p` says whether `ImageFont.truetype(p, ...)`
succeeds (a raised exception aborts the remainder of the block and is
printed by the `except`). -/
def tryPreferredFonts (pathExists loadOk : String → Bool) : FontSlots :=
  if pathExists fontPathRegular then
    if loadOk fontPathRegular then
      tryMedium pathExists loadOk
        ⟨some (.truetype fontPathRegular LABEL_SIZE),
         some (.truetype fontPathRegular SMALL_SIZE),
         none, none,
         some (.truetype fontPathRegular WEATHER_SIZE)⟩
    else ⟨none, none, none, none, none⟩
  else tryMedium pathExists loadOk ⟨none, none, none, none, none⟩

/-- Lines 282-298: if no label font yet, take the first existing system
serif path and load all five slots from it; a raised load error is caught
outside the loop, so no later path is tried. -/
def trySystemFonts (pathExists loadOk : String → Bool) (s : FontSlots) : FontSlots :=
  if s.label.isSome then s
  else
    match serifPaths.find? pathExists with
    | none => s
    | some p =>
      if loadOk p then
        ⟨some (.truetype p LABEL_SIZE), some (.truetype p SMALL_SIZE),
         some (.truetype p MEDIUM_SIZE), some (.truetype p LARGE_SIZE),
         some (.truetype p WEATHER_SIZE)⟩
      else s

/-- Lines 300-305: if still no label font, load the built-in default into
all five slots (`ImageFont.load_default()` never fails). -/
def applyBuiltinFallback (s : FontSlots) : FontSlots :=
  if s.label.isSome then s
  else ⟨some .builtin, some .builtin, some .builtin, some .builtin, some .builtin⟩

/-- Lines 307-314: backfill still-unresolved slots, in order
small←label, medium←small, large←medium, weather←label. -/
def backfillFonts (s : FontSlots) : FontSlots :=
  let small := match s.small with | none => s.label | some f => some f
  let medium := match s.medium with | none => small | some f => some f
  let large := match s.large with | none => medium | some f => some f
  let weather := match s.weather with | none => s.label | some f => some f
  ⟨s.label, small, medium, large, weather⟩

/-- The whole font resolution chain of `generate_image` (lines 264-314). -/
def resolve_fonts (pathExists loadOk : String → Bool) : FontSlots :=
  backfillFonts (applyBuiltinFallback
    (trySystemFonts pathExists loadOk (tryPreferredFonts pathExists loadOk)))

/-- The `WEATHER_ICONS` mapping (lines 40-98), keyed by
`(weather_code, is_day)`. -/
def WEATHER_ICONS : List ((Int × Bool) × String) :=
  [((0, true), "sunny.png"), ((0, false), "clear-night.png"),
   ((1, true), "partly-cloudy.png"), ((1, false), "partly-cloudy-night.png"),
   ((2, true), "partly-cloudy.png"), ((2, false), "partly-cloudy-night.png"),
   ((3, true), "cloudy.png"), ((3, false), "cloudy.png"),
   ((45, true), "humidity.png"), ((45, false), "humidity.png"),
   ((48, true), "humidity.png"), ((48, false), "humidity.png"),
   ((51, true), "rain.png"), ((51, false), "rain.png"),
   ((53, true), "rain.png"), ((53, false), "rain.png"),
   ((55, true), "rain.png"), ((55, false), "rain.png"),
   ((61, true), "rain.png"), ((61, false), "rain.png"),
   ((63, true), "rain.png"), ((63, false), "rain.png"),
   ((65, true), "heavy_rain.png"), ((65, false), "heavy_rain.png"),
   ((80, true), "heavy_rain.png"), ((80, false), "heavy_rain.png"),
   ((81, true), "heavy_rain.png"), ((81, false), "heavy_rain.png"),
   ((82, true), "heavy_rain.png"), ((82, false), "heavy_rain.png"),
   ((71, true), "snow.png"), ((71, false), "snow.png"),
   ((73, true), "snow.png"), ((73, false), "snow.png"),
   ((75, true), "snow.png"), ((75, false), "snow.png"),
   ((77, true), "snow.png"), ((77, false), "snow.png"),
   ((85, true), "snow.png"), ((85, false), "snow.png"),
   ((86, true), "snow.png"), ((86, false), "snow.png"),
   ((95, true), "severe_thunderstorm.png"), ((95, false), "severe_thunderstorm.png"),
   ((96, true), "severe_thunderstorm.png"), ((96, false), "severe_thunderstorm.png"),
   ((99, true), "severe_thunderstorm.png"), ((99, false), "severe_thunderstorm.png")]

/-- The icon-name selection of `get_weather_icon` (lines 128-132): the
table entry for `(weather_code, is_day)`; on a missing (or falsy) entry,
`sunny.png` by day and `clear-night.png` by night. -/
def weather_icon_name (weatherCode : Int) (isDay : Bool) : String :=
  match WEATHER_ICONS.lookup (weatherCode, isDay) with
  | some name =>
    if name = "" then (if isDay then "sunny.png" else "clear-night.png") else name
  | none => if isDay then "sunny.png" else "clear-night.png"

/-- An RGBA pixel (channel values `0..255`). -/
abbrev Pixel := Nat × Nat × Nat × Nat

/-- The `split()` channels of an RGBA image, as flat pixel lists. -/
def channelR (img : List Pixel) : List Nat := img.map (fun p => p.1)
def channelG (img : List Pixel) : List Nat := img.map (fun p => p.2.1)
def channelB (img : List Pixel) : List Nat := img.map (fun p => p.2.2.1)
def channelA (img : List Pixel) : List Nat := img.map (fun p => p.2.2.2)

/-- `ImageOps.invert` on an 8-bit channel: each value `v` becomes `255 - v`. -/
def invertChannel (ch : List Nat) : List Nat := ch.map (fun v => 255 - v)

/-- `Image.merge('RGBA', (r, g, b, a))`. -/
def mergeChannels : List Nat → List Nat → List Nat → List Nat → List Pixel
  | r :: rs, g :: gs, b :: bs, a :: rest => (r, g, b, a) :: mergeChannels rs gs bs rest
  | _, _, _, _ => []

/-- Lines 340-346 of `generate_image`: split the icon into R/G/B/A,
invert R, G and B, and merge them back with the original alpha. -/
def invert_icon (img : List Pixel) : List Pixel :=
  mergeChannels (invertChannel (channelR img)) (invertChannel (channelG img))
    (invertChannel (channelB img)) (channelA img)

/-! ### Helper lemmas -/

theorem listStartsWith_iff (n : List Char) : ∀ l : List Char,
    listStartsWith n l = true ↔ ∃ q, n ++ q = l := by
  induction n with
  | nil => intro l; simp [listStartsWith]
  | cons a xs ih =>
    intro l
    cases l with
    | nil => simp [listStartsWith]
    | cons b ys =>
      simp only [listStartsWith, Bool.and_eq_true, beq_iff_eq, ih, List.cons_append,
        List.cons.injEq]
      constructor
      · rintro ⟨rfl, q, rfl⟩; exact ⟨q, rfl, rfl⟩
      · rintro ⟨q, rfl, rfl⟩; exact ⟨rfl, q, rfl⟩

theorem listContainsSub_iff (n : List Char) : ∀ l : List Char,
    listContainsSub n l = true ↔ ∃ p q, p ++ n ++ q = l := by
  intro l
  induction l with
  | nil =>
    simp only [listContainsSub, listStartsWith_iff]
    constructor
    · rintro ⟨q, h⟩; exact ⟨[], q, h⟩
    · rintro ⟨p, q, h⟩
      rcases List.append_eq_nil.mp h with ⟨h1, h2⟩
      rcases List.append_eq_nil.mp h1 with ⟨rfl, rfl⟩
      exact ⟨[], by simp⟩
  | cons c rest ih =>
    simp only [listContainsSub, Bool.or_eq_true, listStartsWith_iff, ih]
    constructor
    · rintro (⟨q, hq⟩ | ⟨p, q, hpq⟩)
      · exact ⟨[], q, by simpa using hq⟩
      · exact ⟨c :: p, q, by simp [hpq]⟩
    · rintro ⟨p, q, hpq⟩
      cases p with
      | nil => exact Or.inl ⟨q, by simpa using hpq⟩
      | cons x p2 =>
        simp only [List.cons_append, List.cons.injEq] at hpq
        exact Or.inr ⟨p2, q, hpq.2⟩

theorem strContainsSub_iff (needle hay : String) :
    strContainsSub needle hay = true ↔ ∃ p q, p ++ needle.data ++ q = hay.data :=
  listContainsSub_iff needle.data hay.data

theorem is_excluded_iff (cats : List String) (tt : Option String) (a : ℚ)
    (exC exK : List String) :
    is_excluded cats tt a exC exK = true ↔
      (∃ cat ∈ cats, ∃ exc ∈ exC, ∃ p q, p ++ exc.data ++ q = cat.data) ∨
      (∃ s, tt = some s ∧ s ∈ exK) ∨ a ≤ 0 := by
  have hany : (cats.any (fun cat => exC.any (fun exc => strContainsSub exc cat)) = true) ↔
      (∃ cat ∈ cats, ∃ exc ∈ exC, ∃ p q, p ++ exc.data ++ q = cat.data) := by
    simp [List.any_eq_true, strContainsSub_iff]
  have htt : ((match tt with | some t => exK.contains t | none => false) = true) ↔
      (∃ s, tt = some s ∧ s ∈ exK) := by
    cases tt with
    | none => simp
    | some t =>
      constructor
      · intro h
        exact ⟨t, rfl, List.elem_iff.mp h⟩
      · rintro ⟨s, hs, hmem⟩
        obtain rfl : t = s := by injection hs
        exact List.elem_iff.mpr hmem
  unfold is_excluded
  split_ifs with h1 h2 h3
  · simp only [true_iff]; exact Or.inl (hany.mp h1)
  · simp only [true_iff]; exact Or.inr (Or.inl (htt.mp h2))
  · simp only [true_iff]; exact Or.inr (Or.inr h3)
  · simp only [Bool.false_eq_true, false_iff]
    rintro (hc | hc | hc)
    · exact h1 (hany.mpr hc)
    · exact h2 (htt.mpr hc)
    · exact h3 hc

theorem is_excluded_false_amount_pos {cats : List String} {tt : Option String} {a : ℚ}
    {exC exK : List String} (h : is_excluded cats tt a exC exK = false) : 0 < a := by
  unfold is_excluded at h
  split_ifs at h with h1 h2 h3
  exact not_le.mp h3

theorem weekdayMon_nonneg (d : Date) : 0 ≤ weekdayMon d :=
  Int.emod_nonneg _ (by norm_num)

theorem weekStartOrd_le (d : Date) : weekStartOrd d ≤ toOrd d := by
  have h := weekdayMon_nonneg d
  simp only [weekStartOrd]
  omega

theorem applyTxn_ok_inv {today : Date} {ws ms : Int} {acc acc2 : Totals} {txn : RawTxn}
    (hws : ws ≤ toOrd today)
    (h : applyTxn today ws ms acc txn = .ok acc2)
    (hinv : 0 ≤ acc.day ∧ acc.day ≤ acc.week ∧ acc.week ≤ acc.month) :
    0 ≤ acc2.day ∧ acc2.day ≤ acc2.week ∧ acc2.week ≤ acc2.month := by
  unfold applyTxn at h
  split at h
  · exact absurd h (by simp)
  · rename_i dt hdt
    by_cases hskip : toOrd dt < ms
    · rw [if_pos hskip] at h
      obtain rfl : acc = acc2 := by simpa using h
      exact hinv
    · rw [if_neg hskip] at h
      split at h
      · exact absurd h (by simp)
      · rename_i a ham
        by_cases hex : is_excluded (txn.category.getD []) txn.transaction_type a
            EXCLUDED_CATEGORIES EXCLUDED_TRANSACTION_TYPES = true
        · rw [if_pos hex] at h
          obtain rfl : acc = acc2 := by simpa using h
          exact hinv
        · rw [if_neg hex] at h
          have hpos : 0 < a :=
            is_excluded_false_amount_pos (Bool.not_eq_true _ ▸ hex)
          have hmonth : ms ≤ toOrd dt := le_of_not_lt hskip
          obtain rfl : acc2 = ⟨acc.day + (if dt = today then a else 0),
              acc.week + (if ws ≤ toOrd dt then a else 0),
              acc.month + (if ms ≤ toOrd dt then a else 0)⟩ := by
            simpa using h.symm
          obtain ⟨h0, hdw, hwm⟩ := hinv
          simp only [if_pos hmonth]
          by_cases hd : dt = today
          · have hw : ws ≤ toOrd dt := hd ▸ hws
            simp only [if_pos hd, if_pos hw]
            refine ⟨by linarith, by linarith, by linarith⟩
          · simp only [if_neg hd]
            by_cases hw : ws ≤ toOrd dt
            · simp only [if_pos hw]
              refine ⟨by linarith, by linarith, by linarith⟩
            · simp only [if_neg hw]
              refine ⟨by linarith, by linarith, by linarith⟩

theorem calcFold_inv {today : Date} {ws ms : Int} (hws : ws ≤ toOrd today) :
    ∀ (txns : List RawTxn) (acc acc2 : Totals),
      calcFold today ws ms acc txns = .ok acc2 →
      (0 ≤ acc.day ∧ acc.day ≤ acc.week ∧ acc.week ≤ acc.month) →
      0 ≤ acc2.day ∧ acc2.day ≤ acc2.week ∧ acc2.week ≤ acc2.month := by
  intro txns
  induction txns with
  | nil =>
    intro acc acc2 h hinv
    obtain rfl : acc = acc2 := by simpa [calcFold] using h
    exact hinv
  | cons txn rest ih =>
    intro acc acc2 h hinv
    rw [calcFold] at h
    cases happ : applyTxn today ws ms acc txn with
    | error e => rw [happ] at h; exact absurd h (by simp)
    | ok mid =>
      rw [happ] at h
      exact ih mid acc2 h (applyTxn_ok_inv hws happ hinv)

/-! ### Claim theorems -/

/-- C3: for every transaction list and every reference today, the totals
returned by `calculate_spending` satisfy
`0 ≤ day_total ≤ week_total ≤ month_total`. -/
theorem calculate_spending_totals_monotone (txns : List RawTxn) (today : Date) (t : Totals)
    (h : calculate_spending txns today = .ok t) :
    0 ≤ t.day ∧ t.day ≤ t.week ∧ t.week ≤ t.month := by
  unfold calculate_spending at h
  exact calcFold_inv (weekStartOrd_le today) txns ⟨0, 0, 0⟩ t h
    ⟨le_refl 0, le_refl 0, le_refl 0⟩

/-- Witness for C3 at a concrete run: one transaction dated today of
amount 10 yields totals (10, 10, 10), which are monotone. -/
theorem calculate_spending_totals_monotone_witness :
    calculate_spending [⟨.date ⟨2024, 3, 15⟩, some 10, some [], none⟩] ⟨2024, 3, 15⟩ =
      .ok ⟨10, 10, 10⟩ ∧
    (0 ≤ (10 : ℚ) ∧ (10 : ℚ) ≤ 10 ∧ (10 : ℚ) ≤ 10) := by
  have h1 : weekStartOrd ⟨2024, 3, 15⟩ = 738956 := by decide
  have h2 : toOrd (monthStartOf ⟨2024, 3, 15⟩) = 738946 := by decide
  have h3 : toOrd ⟨2024, 3, 15⟩ = 738960 := by decide
  have h4 : is_excluded [] none 10 EXCLUDED_CATEGORIES EXCLUDED_TRANSACTION_TYPES = false := by
    decide
  have e : calculate_spending [⟨.date ⟨2024, 3, 15⟩, some 10, some [], none⟩] ⟨2024, 3, 15⟩ =
      .ok ⟨10, 10, 10⟩ := by
    simp only [calculate_spending, h1, h2, calcFold, applyTxn, getTxnDate, Option.getD_some,
      h3, h4]
    norm_num
  refine ⟨e, ?_⟩
  have := calculate_spending_totals_monotone _ _ _ e
  simp only at this
  exact this

/-- C2: the spending filter excludes a transaction iff some category string
contains some excluded term as a substring (cross-product, substring
containment), or its kind is in the excluded-kinds set (empty by default),
or its amount is non-positive; the default excluded terms are Transfer,
Deposit, Payment, Bank Fees, Interest, Tax; and an excluded transaction
contributes to no window. -/
theorem calculate_spending_filter_rule :
    EXCLUDED_CATEGORIES = ["Transfer", "Deposit", "Payment", "Bank Fees", "Interest", "Tax"] ∧
    EXCLUDED_TRANSACTION_TYPES = [] ∧
    (∀ (cats : List String) (tt : Option String) (a : ℚ),
      is_excluded cats tt a EXCLUDED_CATEGORIES EXCLUDED_TRANSACTION_TYPES = true ↔
        (∃ cat ∈ cats, ∃ exc ∈ EXCLUDED_CATEGORIES, ∃ p q, p ++ exc.data ++ q = cat.data) ∨
        (∃ s, tt = some s ∧ s ∈ EXCLUDED_TRANSACTION_TYPES) ∨ a ≤ 0) ∧
    (∀ (today : Date) (ws ms : Int) (acc : Totals) (dt : Date) (a : ℚ)
        (cats : List String) (tt : Option String),
      is_excluded cats tt a EXCLUDED_CATEGORIES EXCLUDED_TRANSACTION_TYPES = true →
      applyTxn today ws ms acc ⟨.date dt, some a, some cats, tt⟩ = .ok acc) := by
  refine ⟨rfl, rfl, fun cats tt a => is_excluded_iff cats tt a _ _,
    fun today ws ms acc dt a cats tt hex => ?_⟩
  simp only [applyTxn, getTxnDate, Option.getD_some]
  rw [if_pos hex]
  split_ifs <;> rfl

/-- Witness for C2: a transaction with categories [Transfer, Internal] and
amount 500 is excluded and leaves the running totals unchanged. -/
theorem calculate_spending_filter_rule_witness :
    is_excluded ["Transfer", "Internal"] none 500
      EXCLUDED_CATEGORIES EXCLUDED_TRANSACTION_TYPES = true ∧
    applyTxn ⟨2024, 3, 15⟩ 0 0 ⟨1, 2, 3⟩
      ⟨.date ⟨2024, 3, 20⟩, some 500, some ["Transfer", "Internal"], none⟩ = .ok ⟨1, 2, 3⟩ :=
  ⟨by decide, calculate_spending_filter_rule.2.2.2 ⟨2024, 3, 15⟩ 0 0 ⟨1, 2, 3⟩
    ⟨2024, 3, 20⟩ 500 ["Transfer", "Internal"] none (by decide)⟩

theorem applyTxn_eq_noskip {today : Date} {ws ms : Int} {acc : Totals} {txn : RawTxn}
    (hwf : wellFormedTxn txn = true) (hms : ms ≤ ws) (hws : ws ≤ toOrd today) :
    applyTxn today ws ms acc txn = applyTxnSpec today ws ms acc txn := by
  obtain ⟨hd, ha⟩ := Bool.and_eq_true _ _ ▸ hwf
  obtain ⟨dt, hdt⟩ := Option.isSome_iff_exists.mp hd
  obtain ⟨a, ham⟩ := Option.isSome_iff_exists.mp ha
  unfold applyTxn applyTxnSpec
  rw [hdt, ham]
  simp only []
  by_cases hskip : toOrd dt < ms
  · rw [if_pos hskip]
    by_cases hex : is_excluded (txn.category.getD []) txn.transaction_type a
        EXCLUDED_CATEGORIES EXCLUDED_TRANSACTION_TYPES = true
    · rw [if_pos hex]
    · rw [if_neg hex]
      have hd2 : ¬ dt = today := by
        intro he
        rw [he] at hskip
        omega
      have hw2 : ¬ ws ≤ toOrd dt := by omega
      have hm2 : ¬ ms ≤ toOrd dt := by omega
      rw [if_neg hd2, if_neg hw2, if_neg hm2]
      obtain ⟨ad, aw, am⟩ := acc
      simp
  · rw [if_neg hskip]

theorem calcFold_eq_noskip {today : Date} {ws ms : Int} (hms : ms ≤ ws)
    (hws : ws ≤ toOrd today) :
    ∀ (txns : List RawTxn) (acc : Totals), (∀ t ∈ txns, wellFormedTxn t = true) →
      calcFold today ws ms acc txns = calcFoldSpec today ws ms acc txns := by
  intro txns
  induction txns with
  | nil => intro acc _; rfl
  | cons txn rest ih =>
    intro acc hwf
    rw [calcFold, calcFoldSpec, applyTxn_eq_noskip (hwf txn (by simp)) hms hws]
    cases happ : applyTxnSpec today ws ms acc txn with
    | error e => rfl
    | ok mid => exact ih mid (fun t ht => hwf t (by simp [ht]))

/-- C1 (amended): when the current week does not straddle into the
previous month (`month_start ≤ week_start`) and every transaction is
well formed, the early skip of dates before `month_start` is a pure
optimization: `calculate_spending` agrees with the no-skip aggregation
that applies the three membership rules to every non-excluded
transaction.  (Without that proviso the two differ on the week window:
see the counterexample.) -/
theorem calculate_spending_skip_equiv (txns : List RawTxn) (today : Date)
    (hwf : ∀ t ∈ txns, wellFormedTxn t = true)
    (hstraddle : toOrd (monthStartOf today) ≤ weekStartOrd today) :
    calculate_spending txns today = calculate_spending_noskip txns today :=
  calcFold_eq_noskip hstraddle (weekStartOrd_le today) txns ⟨0, 0, 0⟩ hwf

/-- Counterexample to C1 as stated: on Saturday 2024-03-02 the week
starts Monday 2024-02-26, so a transaction dated 2024-02-27 (before
`month_start` 2024-03-01) satisfies the week membership rule; the early
skip drops it (week total 0) while rule-by-rule aggregation counts it
(week total 10). -/
theorem calculate_spending_skip_counterexample :
    calculate_spending [⟨.date ⟨2024, 2, 27⟩, some 10, none, none⟩] ⟨2024, 3, 2⟩ ≠
    calculate_spending_noskip [⟨.date ⟨2024, 2, 27⟩, some 10, none, none⟩] ⟨2024, 3, 2⟩ := by
  have h1 : calculate_spending [⟨.date ⟨2024, 2, 27⟩, some 10, none, none⟩] ⟨2024, 3, 2⟩ =
      .ok ⟨0, 0, 0⟩ := rfl
  have e1 : weekStartOrd ⟨2024, 3, 2⟩ = 738942 := by decide
  have e2 : toOrd (monthStartOf ⟨2024, 3, 2⟩) = 738946 := by decide
  have e3 : toOrd ⟨2024, 2, 27⟩ = 738943 := by decide
  have e4 : is_excluded [] none 10 EXCLUDED_CATEGORIES EXCLUDED_TRANSACTION_TYPES = false := by
    decide
  have h2 : calculate_spending_noskip [⟨.date ⟨2024, 2, 27⟩, some 10, none, none⟩]
      ⟨2024, 3, 2⟩ = .ok ⟨0, 10, 0⟩ := by
    simp only [calculate_spending_noskip, e1, e2, calcFoldSpec, applyTxnSpec, getTxnDate,
      Option.getD_none, e3, e4]
    norm_num
  rw [h1, h2]
  simp only [ne_eq, Except.ok.injEq, Totals.mk.injEq]
  intro hcontra
  have := hcontra.2.1
  norm_num at this

/-- Witness for the amended C1 at a concrete run: today Friday
2024-03-15 (week start 2024-03-11, month start 2024-03-01), one
February transaction and one March transaction; both aggregations
agree. -/
theorem calculate_spending_skip_equiv_witness :
    (∀ t ∈ ([⟨.date ⟨2024, 2, 10⟩, some 7, none, none⟩,
             ⟨.date ⟨2024, 3, 15⟩, some 10, none, none⟩] : List RawTxn),
      wellFormedTxn t = true) ∧
    toOrd (monthStartOf ⟨2024, 3, 15⟩) ≤ weekStartOrd ⟨2024, 3, 15⟩ ∧
    calculate_spending [⟨.date ⟨2024, 2, 10⟩, some 7, none, none⟩,
        ⟨.date ⟨2024, 3, 15⟩, some 10, none, none⟩] ⟨2024, 3, 15⟩ =
      calculate_spending_noskip [⟨.date ⟨2024, 2, 10⟩, some 7, none, none⟩,
        ⟨.date ⟨2024, 3, 15⟩, some 10, none, none⟩] ⟨2024, 3, 15⟩ :=
  ⟨by decide, by decide, calculate_spending_skip_equiv _ _ (by decide) (by decide)⟩

/-- C4 (code bug): a malformed transaction — here one with no amount at
all — dated before `month_start` is silently skipped by the early-skip
line before the amount is ever read, so `calculate_spending` succeeds
with totals (0, 0, 0) instead of failing the whole call. -/
theorem calculate_spending_malformed_silently_skipped :
    wellFormedTxn ⟨.str "2024-02-15", none, none, none⟩ = false ∧
    calculate_spending [⟨.str "2024-02-15", none, none, none⟩] ⟨2024, 3, 15⟩ =
      .ok ⟨0, 0, 0⟩ :=
  ⟨rfl, rfl⟩

theorem digitChar10_ne_comma (m : Nat) : digitChar10 m ≠ ',' := by
  unfold digitChar10
  split_ifs <;> decide

theorem digitsRevAux_no_comma : ∀ (fuel n : Nat), ',' ∉ digitsRevAux fuel n := by
  intro fuel
  induction fuel with
  | zero => intro n h; simp [digitsRevAux] at h
  | succ f ih =>
    intro n h
    rw [digitsRevAux] at h
    split_ifs at h with hlt
    · exact digitChar10_ne_comma n (List.mem_singleton.mp h).symm
    · rcases List.mem_cons.mp h with hc | hrest
      · exact digitChar10_ne_comma _ hc.symm
      · exact ih _ hrest

theorem digitsRevAux_length4 (f n : Nat) (hn : 1000 ≤ n) :
    4 ≤ (digitsRevAux (f + 4) n).length := by
  have h1 : ¬ n < 10 := by omega
  have e1 : digitsRevAux (f + 4) n =
      digitChar10 (n % 10) :: digitsRevAux (f + 3) (n / 10) := by
    show digitsRevAux ((f + 3) + 1) n = _
    rw [digitsRevAux, if_neg h1]
  have h2 : ¬ n / 10 < 10 := by omega
  have e2 : digitsRevAux (f + 3) (n / 10) =
      digitChar10 (n / 10 % 10) :: digitsRevAux (f + 2) (n / 10 / 10) := by
    show digitsRevAux ((f + 2) + 1) _ = _
    rw [digitsRevAux, if_neg h2]
  have h3 : ¬ n / 10 / 10 < 10 := by omega
  have e3 : digitsRevAux (f + 2) (n / 10 / 10) =
      digitChar10 (n / 10 / 10 % 10) :: digitsRevAux (f + 1) (n / 10 / 10 / 10) := by
    show digitsRevAux ((f + 1) + 1) _ = _
    rw [digitsRevAux, if_neg h3]
  have e4 : 1 ≤ (digitsRevAux (f + 1) (n / 10 / 10 / 10)).length := by
    rw [digitsRevAux]
    split_ifs <;> simp
  rw [e1, e2, e3]
  simp only [List.length_cons]
  omega

theorem groupRev_comma {l : List Char} (h : 4 ≤ l.length) : ',' ∈ groupRev l := by
  rcases l with _ | ⟨a, l⟩
  · simp at h
  rcases l with _ | ⟨b, l⟩
  · simp at h
  rcases l with _ | ⟨c, l⟩
  · simp at h
  rcases l with _ | ⟨d, l⟩
  · simp at h
  rw [groupRev]
  simp

theorem natStrGrouped_comma {n : Nat} (hn : 1000 ≤ n) : ',' ∈ (natStrGrouped n).data := by
  have hfuel : n + 1 = (n - 3) + 4 := by omega
  have h4 : 4 ≤ (digitsRev n).length := by
    rw [digitsRev, hfuel]
    exact digitsRevAux_length4 _ _ hn
  show ',' ∈ (groupRev (digitsRev n)).reverse
  rw [List.mem_reverse]
  exact groupRev_comma h4

theorem natStrPlain_no_comma (n : Nat) : ',' ∉ (natStrPlain n).data := by
  show ',' ∉ (digitsRev n).reverse
  rw [List.mem_reverse]
  exact digitsRevAux_no_comma _ _

theorem strData_append (a b : String) : (a ++ b).data = a.data ++ b.data := by
  obtain ⟨la⟩ := a
  obtain ⟨lb⟩ := b
  rfl

theorem roundHalfEven_eq_floor (q : ℚ) :
    roundHalfEven q =
      if q - (⌊q⌋ : ℚ) < 1/2 then ⌊q⌋
      else if (1/2 : ℚ) < q - (⌊q⌋ : ℚ) then ⌊q⌋ + 1
      else if ⌊q⌋ % 2 = 0 then ⌊q⌋ else ⌊q⌋ + 1 := by
  have hden : (0 : ℚ) < (q.den : ℚ) := by exact_mod_cast Rat.den_pos q
  have hnum : (q.num : ℚ) = q * (q.den : ℚ) := by
    have h := Rat.num_div_den q
    rw [div_eq_iff (ne_of_gt hden)] at h
    exact h
  have hcast : ((2 * (q.num - ⌊q⌋ * q.den) : ℤ) : ℚ) = (q - (⌊q⌋ : ℚ)) * (2 * q.den) := by
    push_cast
    rw [hnum]
    ring
  have hcast2 : ((q.den : ℤ) : ℚ) = (1 / 2 : ℚ) * (2 * q.den) := by
    push_cast
    ring
  have h2d : (0 : ℚ) < 2 * (q.den : ℚ) := by linarith
  have hiff1 : (2 * (q.num - ⌊q⌋ * q.den) < (q.den : ℤ)) ↔ (q - (⌊q⌋ : ℚ) < 1/2) := by
    constructor
    · intro h
      have hq : ((2 * (q.num - ⌊q⌋ * q.den) : ℤ) : ℚ) < ((q.den : ℤ) : ℚ) := by
        exact_mod_cast h
      rw [hcast, hcast2] at hq
      exact (mul_lt_mul_right h2d).mp hq
    · intro h
      have hq := (mul_lt_mul_right h2d).mpr h
      rw [← hcast, ← hcast2] at hq
      exact_mod_cast hq
  have hiff2 : ((q.den : ℤ) < 2 * (q.num - ⌊q⌋ * q.den)) ↔ ((1/2 : ℚ) < q - (⌊q⌋ : ℚ)) := by
    constructor
    · intro h
      have hq : ((q.den : ℤ) : ℚ) < ((2 * (q.num - ⌊q⌋ * q.den) : ℤ) : ℚ) := by
        exact_mod_cast h
      rw [hcast, hcast2] at hq
      exact (mul_lt_mul_right h2d).mp hq
    · intro h
      have hq := (mul_lt_mul_right h2d).mpr h
      rw [← hcast, ← hcast2] at hq
      exact_mod_cast hq
  simp only [roundHalfEven]
  rw [show q.num / (q.den : ℤ) = ⌊q⌋ from Rat.floor_def.symm]
  simp only [hiff1, hiff2]

theorem roundHalfEven_mem (q : ℚ) :
    roundHalfEven q = ⌊q⌋ ∨ roundHalfEven q = ⌊q⌋ + 1 := by
  rw [roundHalfEven_eq_floor]
  split_ifs <;> simp

theorem roundHalfEven_ge1000 {q : ℚ} (h : (1000 : ℚ) ≤ q) : 1000 ≤ roundHalfEven q := by
  have hf : (1000 : ℤ) ≤ ⌊q⌋ := by
    rw [Int.le_floor]
    exact_mod_cast h
  rcases roundHalfEven_mem q with h2 | h2 <;> omega

/-- C5: `format_amount` always prefixes `$` and displays zero decimal
digits (it prints a rounded integer); every amount `≥ 1000` is formatted
with a thousands separator and every amount `< 1000` without one; and
`format(999) = "$999"`, `format(1000) = "$1,000"`, `format(0) = "$0"`. -/
theorem format_amount_shape :
    (∀ q : ℚ, ∃ s : String, format_amount q = "$" ++ s) ∧
    (∀ q : ℚ, (1000 : ℚ) ≤ q → ',' ∈ (format_amount q).data) ∧
    (∀ q : ℚ, q < 1000 → ',' ∉ (format_amount q).data) ∧
    format_amount 999 = "$999" ∧ format_amount 1000 = "$1,000" ∧
    format_amount 0 = "$0" := by
  refine ⟨?_, ?_, ?_, by decide, by decide, by decide⟩
  · intro q
    unfold format_amount
    split_ifs
    · exact ⟨_, rfl⟩
    · exact ⟨_, rfl⟩
  · intro q h
    unfold format_amount
    rw [if_pos (show q ≥ 1000 from h)]
    have hn : 1000 ≤ roundHalfEven q := roundHalfEven_ge1000 h
    unfold intStrGrouped
    rw [if_neg (by omega : ¬ roundHalfEven q < 0)]
    rw [strData_append, strData_append]
    refine List.mem_append.mpr (Or.inr (List.mem_append.mpr (Or.inr ?_)))
    exact natStrGrouped_comma (by omega : 1000 ≤ (roundHalfEven q).natAbs)
  · intro q h
    unfold format_amount
    rw [if_neg (show ¬ q ≥ 1000 from not_le.mpr h)]
    unfold intStrPlain
    intro hmem
    rw [strData_append] at hmem
    rcases List.mem_append.mp hmem with h1 | h1
    · exact absurd (List.mem_singleton.mp h1) (by decide)
    · rw [strData_append] at h1
      rcases List.mem_append.mp h1 with h2 | h2
      · split_ifs at h2
        · exact absurd (List.mem_singleton.mp h2) (by decide)
        · simp at h2
      · exact natStrPlain_no_comma _ h2

/-- Witness for C5's separator clauses, at amounts 1000 and 999. -/
theorem format_amount_shape_witness :
    ((1000 : ℚ) ≤ 1000 ∧ ',' ∈ (format_amount 1000).data) ∧
    ((999 : ℚ) < 1000 ∧ ',' ∉ (format_amount 999).data) :=
  ⟨⟨le_refl _, format_amount_shape.2.1 1000 (le_refl _)⟩,
   ⟨by norm_num, format_amount_shape.2.2.1 999 (by norm_num)⟩⟩

/-- C6 (amended): `format_amount` rounds every amount to the nearest
integer dollar with ties to even (within 1/2 of the amount, and even on
exact ties) — but on the spec's own example this yields
`format(1234.5) = "$1,234"`, not `"$1,235"`. -/
theorem format_amount_round_half_to_even :
    (∀ q : ℚ, |q - (roundHalfEven q : ℚ)| ≤ 1/2) ∧
    (∀ q : ℚ, |q - (roundHalfEven q : ℚ)| = 1/2 → roundHalfEven q % 2 = 0) ∧
    format_amount (mkRat 2469 2) = "$1,234" := by
  refine ⟨?_, ?_, by decide⟩
  · intro q
    have h1 := Int.floor_le q
    have h2 := Int.lt_floor_add_one q
    rw [roundHalfEven_eq_floor]
    split_ifs with hc1 hc2 hc3
    · rw [abs_le]; constructor <;> [linarith; linarith]
    · rw [abs_le]; push_cast; constructor <;> [linarith; linarith]
    · rw [abs_le]; constructor <;> [linarith; linarith]
    · rw [abs_le]; push_cast; constructor <;> [linarith; linarith]
  · intro q h
    have h1 := Int.floor_le q
    have h2 := Int.lt_floor_add_one q
    rw [roundHalfEven_eq_floor] at h ⊢
    split_ifs at h ⊢ with hc1 hc2 hc3
    · exfalso
      rcases (abs_eq (by norm_num : (0:ℚ) ≤ 1/2)).mp h with he | he <;> linarith
    · exfalso
      push_cast at h
      rcases (abs_eq (by norm_num : (0:ℚ) ≤ 1/2)).mp h with he | he <;> linarith
    · exact hc3
    · have := Int.emod_emod_of_dvd (⌊q⌋) (dvd_refl 2)
      omega
  
/-- Counterexample to C6 as stated: at 1234.5 the code produces
`"$1,234"` (half-to-even), not the `"$1,235"` the claim asserts. -/
theorem format_amount_1234_5_eval :
    format_amount (mkRat 2469 2) = "$1,234" ∧
    format_amount (mkRat 2469 2) ≠ "$1,235" := by
  constructor
  · decide
  · decide

/-- Witness for the amended C6 at the tie 0.5: the rounded value is even. -/
theorem format_amount_round_half_to_even_witness :
    |(mkRat 1 2 : ℚ) - (roundHalfEven (mkRat 1 2) : ℚ)| = 1/2 ∧
    roundHalfEven (mkRat 1 2) % 2 = 0 := by
  have h0 : roundHalfEven (mkRat 1 2) = 0 := by decide
  have hv : (mkRat 1 2 : ℚ) = 1/2 := by
    rw [Rat.mkRat_eq_div]
    norm_num
  have h : |(mkRat 1 2 : ℚ) - (roundHalfEven (mkRat 1 2) : ℚ)| = 1/2 := by
    rw [h0, hv]
    norm_num
  exact ⟨h, format_amount_round_half_to_even.2.1 _ h⟩

/-- C10: at the boundary just below one thousand the branch is chosen on
the unrounded amount while the shown value is rounded: every amount in
[999.5, 1000) formats as the separator-free `"$1000"`. -/
theorem format_amount_boundary (q : ℚ) (h1 : (1999/2 : ℚ) ≤ q) (h2 : q < 1000) :
    format_amount q = "$1000" := by
  have hfl : ⌊q⌋ = 999 := by
    rw [Int.floor_eq_iff]
    constructor
    · push_cast; linarith
    · push_cast; linarith
  have hr : roundHalfEven q = 1000 := by
    rw [roundHalfEven_eq_floor, hfl]
    rw [if_neg (show ¬ (q - ((999 : ℤ) : ℚ) < 1/2) by push_cast; linarith)]
    by_cases h3 : (1/2 : ℚ) < q - ((999 : ℤ) : ℚ)
    · rw [if_pos h3]
      norm_num
    · rw [if_neg h3, if_neg (by decide : ¬ ((999 : ℤ) % 2 = 0))]
      norm_num
  unfold format_amount
  rw [if_neg (show ¬ q ≥ 1000 from not_le.mpr h2), hr]
  decide

/-- Witness for C10 at exactly 999.5. -/
theorem format_amount_boundary_witness :
    (1999/2 : ℚ) ≤ mkRat 1999 2 ∧ (mkRat 1999 2 : ℚ) < 1000 ∧
    format_amount (mkRat 1999 2) = "$1000" := by
  have hv : (mkRat 1999 2 : ℚ) = 1999/2 := by
    rw [Rat.mkRat_eq_div]
    norm_num
  exact ⟨le_of_eq hv.symm, by rw [hv]; norm_num,
    format_amount_boundary _ (le_of_eq hv.symm) (by rw [hv]; norm_num)⟩

theorem backfillFonts_total (s : FontSlots) (h : s.label.isSome = true) :
    (backfillFonts s).label.isSome = true ∧ (backfillFonts s).small.isSome = true ∧
    (backfillFonts s).medium.isSome = true ∧ (backfillFonts s).large.isSome = true ∧
    (backfillFonts s).weather.isSome = true := by
  obtain ⟨lab, sm, md, lg, we⟩ := s
  cases lab with
  | none => simp at h
  | some f =>
    cases sm <;> cases md <;> cases lg <;> cases we <;> simp [backfillFonts]

theorem applyBuiltinFallback_label (s : FontSlots) :
    (applyBuiltinFallback s).label.isSome = true := by
  unfold applyBuiltinFallback
  split_ifs with h
  · exact h
  · simp

/-- C7: font resolution never fails — for every combination of present or
absent preferred and system font files, and every pattern of load
failures, the chain ends with a non-null font object in all five slots
(label, small, medium, large, weather), via the built-in default and the
backfill rules small←label, medium←small, large←medium. -/
theorem resolve_fonts_never_fails (pathExists loadOk : String → Bool) :
    (resolve_fonts pathExists loadOk).label.isSome = true ∧
    (resolve_fonts pathExists loadOk).small.isSome = true ∧
    (resolve_fonts pathExists loadOk).medium.isSome = true ∧
    (resolve_fonts pathExists loadOk).large.isSome = true ∧
    (resolve_fonts pathExists loadOk).weather.isSome = true := by
  unfold resolve_fonts
  exact backfillFonts_total _ (applyBuiltinFallback_label _)

theorem lookup_mem {l : List ((Int × Bool) × String)} {k : Int × Bool} {v : String}
    (h : l.lookup k = some v) : (k, v) ∈ l := by
  induction l with
  | nil => simp [List.lookup] at h
  | cons p rest ih =>
    obtain ⟨pk, pv⟩ := p
    rw [List.lookup] at h
    by_cases hk : k == pk
    · rw [hk] at h
      simp only [] at h
      obtain rfl : pv = v := by simpa using h
      obtain rfl : k = pk := by simpa using hk
      exact List.mem_cons_self _ _
    · rw [Bool.not_eq_true] at hk
      rw [hk] at h
      simp only [] at h
      exact List.mem_cons_of_mem _ (ih h)

/-- C8: weather icon selection is total and deterministic: the function
returns the `WEATHER_ICONS` table entry when `(code, is_day)` is mapped,
and otherwise the explicit fallback `sunny.png` by day or
`clear-night.png` by night. -/
theorem weather_icon_name_total (code : Int) (isDay : Bool) :
    (WEATHER_ICONS.lookup (code, isDay) = none →
      weather_icon_name code isDay = (if isDay then "sunny.png" else "clear-night.png")) ∧
    (∀ n, WEATHER_ICONS.lookup (code, isDay) = some n →
      weather_icon_name code isDay = n) := by
  constructor
  · intro h
    unfold weather_icon_name
    rw [h]
  · intro n h
    unfold weather_icon_name
    rw [h]
    have hmem := lookup_mem h
    have hall : ∀ p ∈ WEATHER_ICONS, p.2 ≠ "" := by decide
    exact if_neg (hall _ hmem)

/-- Witness for C8 at a mapped pair (0, day) and an unmapped pair
(100, night). -/
theorem weather_icon_name_total_witness :
    WEATHER_ICONS.lookup ((0 : Int), true) = some "sunny.png" ∧
    weather_icon_name 0 true = "sunny.png" ∧
    WEATHER_ICONS.lookup ((100 : Int), false) = none ∧
    weather_icon_name 100 false = "clear-night.png" := by
  refine ⟨by decide, (weather_icon_name_total 0 true).2 _ (by decide), by decide, ?_⟩
  have h := (weather_icon_name_total 100 false).1 (by decide)
  simpa using h

/-- C9: preparing the weather icon inverts each of the R, G and B
channels pointwise (`v` becomes `255 - v`) while the alpha channel is
left pixel-for-pixel unchanged. -/
theorem invert_icon_channels (img : List Pixel) :
    channelA (invert_icon img) = channelA img ∧
    channelR (invert_icon img) = invertChannel (channelR img) ∧
    channelG (invert_icon img) = invertChannel (channelG img) ∧
    channelB (invert_icon img) = invertChannel (channelB img) := by
  induction img with
  | nil => simp [invert_icon, channelR, channelG, channelB, channelA, invertChannel,
      mergeChannels]
  | cons p rest ih =>
    obtain ⟨r, g, b, a⟩ := p
    obtain ⟨ihA, ihR, ihG, ihB⟩ := ih
    simp only [invert_icon, channelR, channelG, channelB, channelA, invertChannel,
      List.map_cons, mergeChannels] at ihA ihR ihG ihB ⊢
    exact ⟨by rw [ihA], by rw [ihR], by rw [ihG], by rw [ihB]⟩
